import Mathlib

/-!
Shallow embedding of the Hubspace Home Assistant integration
(`custom_components/hubspace`: `hubspace.py`, `const.py`, `light.py`,
`fan.py`).

Python dictionaries are modelled as insertion-ordered association lists;
the two-level state map `_states : dict[FunctionClass, dict[FunctionInstance
or None, HubspaceStateValue]]` becomes a list of `(class, list (instance,
state-data))` pairs, with dictionary `get`/insert translated as first-match
lookup and update-in-place-or-append.  JSON scalar values (`Any` in the
Python source) are modelled by the `Value` type; Python `None` is
`Value.null`, and Python truthiness is `Value.truthy`.  Network I/O is
modelled by passing the response payload as an explicit argument and
returning a flag recording whether a request was performed.
-/

/-- A JSON scalar value as held in a state dictionary's `value` field.
`null` models Python `None` (also a missing key, since `dict.get` yields
`None`). -/
inductive Value where
  | null
  | str (s : String)
  | int (n : Int)
  | bool (b : Bool)
deriving DecidableEq, Repr

/-- Python truthiness of a scalar value: `None` and empty/zero values are
falsy, everything else truthy. -/
def Value.truthy : Value → Bool
  | .null => false
  | .str s => s ≠ ""
  | .int n => n ≠ 0
  | .bool b => b

/-- Python `str()` applied to a scalar value (`str(True) = "True"`,
`str(False) = "False"`). -/
def Value.pyStr : Value → String
  | .null => "None"
  | .str s => s
  | .int n => toString n
  | .bool true => "True"
  | .bool false => "False"

/- Constants from `const.py`. -/

namespace FunctionClass

def UNSUPPORTED : String := "unsupported"

def POWER : String := "power"

def BRIGHTNESS : String := "brightness"

def FAN_SPEED : String := "fan-speed"

def AVAILABLE : String := "available"

def TOGGLE : String := "toggle"

def COLOR_TEMPERATURE : String := "color-temperature"

end FunctionClass

/-- Constant from `const.py`: list of function classes that can be set by home assistant. -/
def SETTABLE_FUNCTION_CLASSES : List String :=
  [FunctionClass.POWER, FunctionClass.BRIGHTNESS, FunctionClass.FAN_SPEED,
   FunctionClass.TOGGLE, FunctionClass.COLOR_TEMPERATURE]

/-- Constant `TOGGLE_DISABLED` from `const.py`. -/
def TOGGLE_DISABLED : String := "disabled"

/-- Constant `TOGGLE_ENABLED` from `const.py`. -/
def TOGGLE_ENABLED : String := "enabled"

/-- The `_data` dictionary of a `HubspaceStateValue`: the fields a state
payload entry may carry.  `functionClass = none` models a payload entry
with no `functionClass` key at all. -/
structure StateData where
  functionClass : Option String
  functionInstance : Option String
  value : Value
  lastUpdateTime : Option Int
deriving DecidableEq, Repr

/-- Source `HubspaceFunctionKeyedObject.function_class`: the stored class, or the
`unsupported` sentinel when the key is absent. -/
def function_class (d : StateData) : String :=
  d.functionClass.getD FunctionClass.UNSUPPORTED

/-- Source `HubspaceFunctionKeyedObject.function_instance`: the stored instance or
`None`. -/
def function_instance (d : StateData) : Option String :=
  d.functionInstance

/-- Source `HubspaceStateValue.hubspace_value`: `self._data.get("value")`. -/
def hubspace_value (d : StateData) : Value :=
  d.value

/-- Source `HubspaceStateValue.set_hubspace_value`: `self._data["value"] = value`. -/
def set_hubspace_value (d : StateData) (v : Value) : StateData :=
  { d with value := v }

/-- Source `HubspaceStateValue.hass_value`: the raw value, except that the
`available` class is passed through Python `bool()`. -/
def hass_value (d : StateData) : Value :=
  if function_class d = FunctionClass.AVAILABLE then
    Value.bool (hubspace_value d).truthy
  else
    hubspace_value d

/-- Source `HubspaceStateValue.set_hass_value`: store the raw value, except that
the `available` class is passed through Python `str()`. -/
def set_hass_value (d : StateData) (v : Value) : StateData :=
  if function_class d = FunctionClass.AVAILABLE then
    set_hubspace_value d (Value.str v.pyStr)
  else
    set_hubspace_value d v

/- Brightness conversions from `light.py`. -/

/-- Function `_brightness_to_hass` from `light.py`: `int(value * 255) // 100`. -/
def _brightness_to_hass (value : Nat) : Nat :=
  value * 255 / 100

/-- Function `_brightness_to_hubspace` from `light.py`: `value * 100 // 255`. -/
def _brightness_to_hubspace (value : Nat) : Nat :=
  value * 100 / 255

/- Fan-speed value ordering from `fan.py` / `HubspaceFunction.values`. -/

/-- Python `value[-3:]`: the last three characters of a string (the whole
string when it is shorter). -/
def lastThree (s : String) : List Char :=
  s.toList.drop (s.length - 3)

/-- Decimal interpretation of a digit list, as Python `int()` on a string
of digits. -/
def digitsToNat (cs : List Char) : Nat :=
  cs.foldl (fun n c => 10 * n + (c.toNat - 48)) 0

/-- Source `HubspaceFanFunction._value_key` (`fan.py`) for the fan-speed class:
`int(value[-3:])`. -/
def fanSpeedKey (s : String) : Nat :=
  digitsToNat (lastThree s)

/-- Source `HubspaceFunction.values` with the fan-speed key: sort the extracted
value names by `_value_key`.  Python `list.sort(key=...)` is a stable sort
by the key; it is modelled by the (stable) insertion sort on the key
preorder, which computes the same list. -/
def fanSpeedValues (names : List String) : List String :=
  names.insertionSort (fun a b => fanSpeedKey a ≤ fanSpeedKey b)

/- The two-level state map `HubspaceEntity._states`, as an insertion-ordered
association list mirroring the Python dict of dicts. -/

/-- Inner dictionary: `dict[FunctionInstance or None, HubspaceStateValue]`. -/
abbrev InnerStates := List (Option String × StateData)

/-- Outer dictionary: `dict[FunctionClass, dict[FunctionInstance or None,
HubspaceStateValue]]`. -/
abbrev States := List (String × InnerStates)

/-- Dictionary lookup `self.states.get(c, {})`: the inner map of the first
(in a real dict, only) entry for class `c`, or the empty map. -/
def getClassStates : States → String → InnerStates
  | [], _ => []
  | p :: rest, c => if p.1 = c then p.2 else getClassStates rest c

/-- Lookup `self.states.get(c, {}).get(i)`. -/
def stateGet (m : States) (c : String) (i : Option String) : Option StateData :=
  ((getClassStates m c).find? (fun q => q.1 = i)).map Prod.snd

/-- Dictionary insert into the inner map: update an existing key in place,
or append a fresh key at the end (Python dict semantics). -/
def insertInner : InnerStates → Option String → StateData → InnerStates
  | [], i, d => [(i, d)]
  | q :: rest, i, d =>
      if q.1 = i then (i, d) :: rest else q :: insertInner rest i d

/-- Dictionary insert into the two-level map: `self._states[c] = {}` when
absent, then `self._states[c][i] = v`. -/
def insert2 : States → String → Option String → StateData → States
  | [], c, i, d => [(c, [(i, d)])]
  | p :: rest, c, i, d =>
      if p.1 = c then (c, insertInner p.2 i d) :: rest
      else p :: insert2 rest c i d

/-- One iteration of the loop in `HubspaceEntity._set_state`: drop the
entry when its class is the `unsupported` sentinel, otherwise insert it
keyed by (class, instance). -/
def insertState (m : States) (d : StateData) : States :=
  if function_class d = FunctionClass.UNSUPPORTED then m
  else insert2 m (function_class d) (function_instance d) d

/-- The loop of `HubspaceEntity._set_state`: rebuild the map from scratch
(`self._states = {}`) out of the payload's `values` list. -/
def buildStates (vs : List StateData) : States :=
  vs.foldl insertState []

/-- A state payload as received by `_set_state`: `isTruthy` is the Python
truthiness of the `state` argument (`None` and `{}` are falsy), `values`
is `state.get("values", [])`. -/
structure StatePayload where
  isTruthy : Bool
  values : List StateData
deriving DecidableEq, Repr

/-- Source `HubspaceEntity._set_state`: when the payload is truthy, replace the
whole map with one built from its `values` list; otherwise do nothing. -/
def setState (old : States) (p : StatePayload) : States :=
  if p.isTruthy then buildStates p.values else old

/-- A `FunctionKey` (`const.py`): either a bare function class or a
(class, instance) tuple. -/
inductive FunctionKey where
  | cls (c : String)
  | pair (c : String) (i : Option String)
deriving DecidableEq, Repr

/-- Source `HubspaceEntity._set_state_value`: a tuple key mutates the single
matching state value (no-op when absent); a bare-class key mutates every
state value of that class.  Each selected value is written through
`set_hass_value`. -/
def setStateValue (m : States) (k : FunctionKey) (v : Value) : States :=
  match k with
  | .pair c i =>
      m.map (fun p =>
        if p.1 = c then
          (p.1, p.2.map (fun q =>
            if q.1 = i then (q.1, set_hass_value q.2 v) else q))
        else p)
  | .cls c =>
      m.map (fun p =>
        if p.1 = c then
          (p.1, p.2.map (fun q => (q.1, set_hass_value q.2 v)))
        else p)

/-- Source `HubspaceEntity._get_state_value`: result value together with a flag
recording whether the ambiguity warning was logged.  A tuple key is an
exact lookup; a bare-class key takes the first state value of the class in
map-iteration order and warns when more than one exists; the default is
returned when nothing is found. -/
def getStateValue (m : States) (k : FunctionKey) (default : Value) :
    Value × Bool :=
  match k with
  | .pair c i =>
      match stateGet m c i with
      | some d => (hass_value d, false)
      | none => (default, false)
  | .cls c =>
      match getClassStates m c with
      | [] => (default, false)
      | q :: rest => (hass_value q.2, decide (rest ≠ []))

/- Push serialization (`HubspaceEntity._push_state`). -/

/-- One entry of the `values` list of a push payload.  `functionInstance =
none` models the `functionInstance` key being absent from the entry's
dictionary (the source merges it in only when the instance is truthy). -/
structure PushEntry where
  functionClass : String
  value : Value
  lastUpdateTime : Int
  functionInstance : Option String
deriving DecidableEq, Repr

/-- Python truthiness of an optional string (`if state.function_instance`):
absent and empty strings are falsy. -/
def instTruthy : Option String → Bool
  | none => false
  | some s => s ≠ ""

/-- The entry `_push_state` builds for one state value: class, raw value,
the shared timestamp, and the instance merged in only when truthy. -/
def mkPushEntry (t : Int) (d : StateData) : PushEntry :=
  { functionClass := function_class d
    value := hubspace_value d
    lastUpdateTime := t
    functionInstance :=
      if instTruthy (function_instance d) then function_instance d else none }

/-- The filter of `_push_state`'s list comprehension: the raw value is
non-null and the class is in the settable allow-list. -/
def pushQualifies (d : StateData) : Bool :=
  hubspace_value d ≠ Value.null ∧
    function_class d ∈ SETTABLE_FUNCTION_CLASSES

/-- The `values` list of `_push_state`'s payload: one entry per qualifying
state value, in iteration order, all sharing the timestamp `t`. -/
def pushValues (t : Int) : List StateData → List PushEntry
  | [] => []
  | d :: rest =>
      if pushQualifies d then mkPushEntry t d :: pushValues t rest
      else pushValues t rest

/-- The flattening `[state for states in self.states.values() for state in
states.values()]`. -/
def flattenStates (m : States) : List StateData :=
  m.foldl (fun acc p => acc ++ p.2.map Prod.snd) []

/- The synchronization protocol (`update` / `set_state` / `_push_state`). -/

/-- The mutable synchronization state of a `HubspaceEntity`: the parsed
state map and the `_skip_next_update` flag. -/
structure Entity where
  states : States
  skipNextUpdate : Bool
deriving DecidableEq, Repr

/-- Source `HubspaceEntity.update`.  Here `resp` is the body the `GET state` request
would return; the returned flag records whether a network request was
performed.  When `_skip_next_update` is set, clear it and return without
touching the state map or the network; otherwise fetch and replace the
state map from the response. -/
def update (e : Entity) (resp : StatePayload) : Entity × Bool :=
  if e.skipNextUpdate then
    ({ e with skipNextUpdate := false }, false)
  else
    ({ e with states := setState e.states resp }, true)

/-- Source `HubspaceEntity.set_state`: PUT the given values (request construction
is network I/O, elided), replace the state map from the response `resp`,
and set `_skip_next_update`. -/
def set_state (e : Entity) (resp : StatePayload) : Entity :=
  { states := setState e.states resp, skipNextUpdate := true }

/-- Source `HubspaceEntity._push_state`: serialize the current state map with the
shared timestamp `t`, PUT it (returned as the second component), replace
the state map from the response `resp`, and set `_skip_next_update`. -/
def push_state (e : Entity) (t : Int) (resp : StatePayload) :
    Entity × List PushEntry :=
  ({ states := setState e.states resp, skipNextUpdate := true },
   pushValues t (flattenStates e.states))

/- The fan adapter (`fan.py`). -/

/-- The function catalog restricted to what the fan preset logic reads:
for each function class, the list of instance keys in insertion order. -/
abbrev FunctionsMap := List (String × List (Option String))

/-- Source `HubspaceFanEntity.preset_modes`: every non-`None` instance across all
catalog classes, with `"auto"` prepended when any exist. -/
def preset_modes (fns : FunctionsMap) : List String :=
  let pm := fns.foldl (fun acc p => acc ++ p.2.filterMap id) []
  if pm ≠ [] then "auto" :: pm else pm

/-- Source `HubspaceFanEntity.preset_mode`: the first toggle-class state with a
non-`None` instance whose raw value is `"enabled"`, else `"auto"`. -/
def preset_mode (m : States) : String :=
  match m.flatMap (fun p => p.2.map (fun q => (p.1, q.1, q.2))) |>.find?
      (fun x => x.1 = FunctionClass.TOGGLE ∧ x.2.1 ≠ none ∧
        hubspace_value x.2.2 = Value.str TOGGLE_ENABLED) with
  | some (_, some i, _) => i
  | _ => "auto"

/-- The response of a PUT whose body echoes the accepted push payload back
as a state payload (the vendor contract: the PUT response has the same
shape as a GET response and echoes the accepted state). -/
def pushEcho (st : States) (t : Int) : StatePayload :=
  ⟨true, (pushValues t (flattenStates st)).map (fun e =>
    { functionClass := some e.functionClass
      functionInstance := e.functionInstance
      value := e.value
      lastUpdateTime := some e.lastUpdateTime })⟩

/-- Source `HubspaceFanEntity.set_preset_mode`, with the PUT response taken to be
the echo of the pushed payload: `"auto"` writes `disabled` to the toggle
state of every preset mode; any other mode writes `enabled` to exactly that
toggle instance; then the current state is pushed. -/
def set_preset_mode (e : Entity) (fns : FunctionsMap) (pm : String)
    (t : Int) : Entity :=
  let st :=
    if pm = "auto" then
      (preset_modes fns).foldl
        (fun acc mode =>
          setStateValue acc (.pair FunctionClass.TOGGLE (some mode))
            (Value.str TOGGLE_DISABLED))
        e.states
    else
      setStateValue e.states (.pair FunctionClass.TOGGLE (some pm))
        (Value.str TOGGLE_ENABLED)
  (push_state { e with states := st } t (pushEcho st t)).1

/- Auxiliary definitions used to state the theorems below. -/

/-- Whether a payload entry would be stored in the state map under the key
(`c`, `i`): its resolved class is `c`, its instance is `i`, and its class
is not the `unsupported` sentinel. -/
def isEntryFor (c : String) (i : Option String) (d : StateData) : Bool :=
  function_class d = c ∧ function_instance d = i ∧
    function_class d ≠ FunctionClass.UNSUPPORTED

/-- The last entry of a payload's `values` list that would be stored under
the key (`c`, `i`) — the entry that survives dictionary overwriting when
the map is rebuilt. -/
def findLastEntry (c : String) (i : Option String) :
    List StateData → Option StateData
  | [] => none
  | d :: rest =>
      (findLastEntry c i rest).or (if isEntryFor c i d then some d else none)

/- Concrete data for the fan preset scenario of `fan.py` (a fan whose
toggle catalog instances are `sleep` and `eco`, both toggles starting
disabled). -/

/-- The `sleep` toggle state value, initially disabled. -/
def dSleep : StateData :=
  ⟨some FunctionClass.TOGGLE, some "sleep", Value.str TOGGLE_DISABLED, none⟩

/-- The `eco` toggle state value, initially disabled. -/
def dEco : StateData :=
  ⟨some FunctionClass.TOGGLE, some "eco", Value.str TOGGLE_DISABLED, none⟩

/-- The fan's function catalog: toggle instances `sleep` and `eco`. -/
def fanFns : FunctionsMap :=
  [(FunctionClass.TOGGLE, [some "sleep", some "eco"])]

/-- The fan entity before any command. -/
def fanE0 : Entity :=
  ⟨[(FunctionClass.TOGGLE, [(some "sleep", dSleep), (some "eco", dEco)])],
   false⟩

/-- The fan entity after `set_preset_mode("eco")`. -/
def fanE1 : Entity := set_preset_mode fanE0 fanFns "eco" 0

/-- The fan entity after a subsequent `set_preset_mode("auto")`. -/
def fanE2 : Entity := set_preset_mode fanE1 fanFns "auto" 1

/-- A concrete `available`-class state value. -/
def dAvail : StateData :=
  ⟨some FunctionClass.AVAILABLE, none, Value.str "True", none⟩

/- Theorems. -/

/-- C6: the brightness conversions are `toDomain(raw) = raw * 255 / 100`
and `toRaw(hass) = hass * 100 / 255` (integer floor division); for every
raw value in 0..100 the round trip `toRaw(toDomain(raw))` is within 1 of
`raw`, and `toDomain(0) = 0`, `toDomain(100) = 255`. -/
theorem brightness_conversions :
    (∀ raw : Nat, _brightness_to_hass raw = raw * 255 / 100) ∧
    (∀ h : Nat, _brightness_to_hubspace h = h * 100 / 255) ∧
    (∀ raw : Nat, raw ≤ 100 →
      _brightness_to_hubspace (_brightness_to_hass raw) ≤ raw ∧
      raw ≤ _brightness_to_hubspace (_brightness_to_hass raw) + 1) ∧
    _brightness_to_hass 0 = 0 ∧ _brightness_to_hass 100 = 255 := by
  refine ⟨fun _ => rfl, fun _ => rfl, ?_, rfl, rfl⟩
  decide

/-- Witness for C6: the round trip at the concrete raw value 37. -/
theorem brightness_conversions_witness :
    _brightness_to_hubspace (_brightness_to_hass 37) ≤ 37 ∧
    37 ≤ _brightness_to_hubspace (_brightness_to_hass 37) + 1 :=
  brightness_conversions.2.2.1 37 (by decide)

/-- C7: sorting value tokens with the fan-speed key always yields an order
that is non-decreasing in the numeric value of the last three characters;
in particular `["fan-speed-100", "fan-speed-025", "fan-speed-050"]` sorts
to the order 025, 050, 100. -/
theorem fanSpeed_sort_nondecreasing :
    (∀ names : List String,
      (fanSpeedValues names).Pairwise
        (fun a b => fanSpeedKey a ≤ fanSpeedKey b)) ∧
    fanSpeedValues ["fan-speed-100", "fan-speed-025", "fan-speed-050"] =
      ["fan-speed-025", "fan-speed-050", "fan-speed-100"] := by
  constructor
  · intro names
    have ht : IsTotal String (fun a b => fanSpeedKey a ≤ fanSpeedKey b) :=
      ⟨fun a b => Nat.le_total _ _⟩
    have hr : IsTrans String (fun a b => fanSpeedKey a ≤ fanSpeedKey b) :=
      ⟨fun a b c => Nat.le_trans⟩
    exact List.sorted_insertionSort _ names
  · decide

/-- C9 counterexample: the round trip fails for `False` — on an
`available`-class state value, `set_hass_value(False)` stores the string
`"False"`, and `hass_value` then applies Python truthiness, which is
`True` on any non-empty string. -/
theorem available_roundtrip_counterexample :
    hass_value (set_hass_value dAvail (Value.bool false)) ≠
      Value.bool false := by
  decide

/-- C9 (amended): on the `available` class, `set_hass_value(b)` stores the
string encoding `str(b)` of the boolean, but `hass_value` reads back the
truthiness of the stored token, which is `True` for both encodings; the
round trip therefore returns `b` only when `b = True`. -/
theorem available_set_get (d : StateData) (b : Bool)
    (h : function_class d = FunctionClass.AVAILABLE) :
    (set_hass_value d (Value.bool b)).value =
      Value.str (if b then "True" else "False") ∧
    hass_value (set_hass_value d (Value.bool b)) = Value.bool true := by
  have hc : function_class (set_hass_value d (Value.bool b)) =
      function_class d := by
    simp [set_hass_value, set_hubspace_value, function_class]
    split <;> rfl
  constructor
  · cases b <;>
      simp [set_hass_value, set_hubspace_value, h, Value.pyStr]
  · rw [hass_value, hc, h, if_pos rfl]
    cases b <;>
      simp [set_hass_value, set_hubspace_value, hubspace_value, h,
        Value.pyStr, Value.truthy]

/-- Witness for the amended C9 at a concrete available-class state value
and `b = True`. -/
theorem available_set_get_witness :
    (set_hass_value dAvail (Value.bool true)).value = Value.str "True" ∧
    hass_value (set_hass_value dAvail (Value.bool true)) =
      Value.bool true := by
  have h := available_set_get dAvail true (by decide)
  simpa using h

/-- C10: a falsy state payload (Python `None` or an empty dictionary)
leaves the existing state map completely unchanged; the whole-map
replacement only happens for a truthy payload. -/
theorem setState_falsy (old : States) (p : StatePayload)
    (h : p.isTruthy = false) : setState old p = old := by
  simp [setState, h]

/-- Witness for C10: a falsy payload on a concrete one-entry state map. -/
theorem setState_falsy_witness :
    setState [("power", [(none, ⟨some "power", none, Value.str "on", none⟩)])]
        ⟨false, []⟩ =
      [("power", [(none, ⟨some "power", none, Value.str "on", none⟩)])] :=
  setState_falsy _ _ rfl

/-- C1: after `set_state` (and likewise after `_push_state`) the skip flag
is set; the next `update` performs no network request, leaves the state map
unchanged, and clears the flag; the `update` after that performs the
normal fetch and replaces the state map from its response. -/
theorem skip_next_poll (e : Entity) (resp presp r₁ r₂ : StatePayload)
    (t : Int) :
    ((set_state e resp).skipNextUpdate = true ∧
      update (set_state e resp) r₁ =
        ({ set_state e resp with skipNextUpdate := false }, false) ∧
      (update (set_state e resp) r₁).1.states = (set_state e resp).states ∧
      update (update (set_state e resp) r₁).1 r₂ =
        ({ (update (set_state e resp) r₁).1 with
            states := setState (update (set_state e resp) r₁).1.states r₂ },
          true)) ∧
    ((push_state e t presp).1.skipNextUpdate = true ∧
      update (push_state e t presp).1 r₁ =
        ({ (push_state e t presp).1 with skipNextUpdate := false }, false) ∧
      (update (push_state e t presp).1 r₁).1.states =
        (push_state e t presp).1.states ∧
      update (update (push_state e t presp).1 r₁).1 r₂ =
        ({ (update (push_state e t presp).1 r₁).1 with
            states :=
              setState (update (push_state e t presp).1 r₁).1.states r₂ },
          true)) := by
  refine ⟨⟨rfl, rfl, rfl, rfl⟩, ⟨rfl, rfl, rfl, rfl⟩⟩

/-- C8: on the fan whose toggle catalog instances are `sleep` and `eco`,
both starting disabled, `set_preset_mode("eco")` enables only the `eco`
toggle and leaves `sleep` untouched; a subsequent `set_preset_mode("auto")`
disables every toggle instance, and `preset_mode` then reads back
`"auto"`. -/
theorem fan_preset_scenario :
    (stateGet fanE1.states FunctionClass.TOGGLE (some "sleep")).map
        hubspace_value = some (Value.str TOGGLE_DISABLED) ∧
    (stateGet fanE1.states FunctionClass.TOGGLE (some "eco")).map
        hubspace_value = some (Value.str TOGGLE_ENABLED) ∧
    (stateGet fanE2.states FunctionClass.TOGGLE (some "sleep")).map
        hubspace_value = some (Value.str TOGGLE_DISABLED) ∧
    (stateGet fanE2.states FunctionClass.TOGGLE (some "eco")).map
        hubspace_value = some (Value.str TOGGLE_DISABLED) ∧
    preset_mode fanE2.states = "auto" := by
  decide

/-- C2: the push serialization produces exactly one entry per state value
whose raw value is non-null and whose class is settable, in iteration
order; every entry carries the class, the raw value, and the single shared
timestamp, and carries the instance field only when the instance is
present; an `available`-class state never qualifies even with a non-null
value, and a null-valued state never qualifies even with a settable
class. -/
theorem push_serialization (t : Int) (ds : List StateData) :
    pushValues t ds = (ds.filter pushQualifies).map (mkPushEntry t) ∧
    (∀ e ∈ pushValues t ds, e.lastUpdateTime = t ∧
      ∃ d ∈ ds, pushQualifies d = true ∧ e = mkPushEntry t d) ∧
    (∀ d : StateData, pushQualifies d = true →
      (mkPushEntry t d).functionClass = function_class d ∧
      (mkPushEntry t d).value = hubspace_value d ∧
      (mkPushEntry t d).lastUpdateTime = t ∧
      ((mkPushEntry t d).functionInstance ≠ none →
        (mkPushEntry t d).functionInstance = function_instance d)) ∧
    (∀ d : StateData, function_class d = FunctionClass.AVAILABLE →
      pushQualifies d = false) ∧
    (∀ d : StateData, hubspace_value d = Value.null →
      pushQualifies d = false) := by
  refine ⟨?_, ?_, ?_, ?_, ?_⟩
  · induction ds with
    | nil => rfl
    | cons d rest ih =>
        by_cases h : pushQualifies d = true <;>
          simp [pushValues, List.filter, h, ih]
  · induction ds with
    | nil => simp [pushValues]
    | cons d rest ih =>
        by_cases h : pushQualifies d = true
        · intro e he
          rw [pushValues, if_pos (by simp [h])] at he
          rcases List.mem_cons.mp he with h1 | h2
          · subst h1
            exact ⟨rfl, d, List.mem_cons_self .., h, rfl⟩
          · obtain ⟨h1, d', hd', hq, he'⟩ := ih e h2
            exact ⟨h1, d', List.mem_cons_of_mem _ hd', hq, he'⟩
        · intro e he
          rw [pushValues, if_neg (by simp [h])] at he
          obtain ⟨h1, d', hd', hq, he'⟩ := ih e he
          exact ⟨h1, d', List.mem_cons_of_mem _ hd', hq, he'⟩
  · intro d _
    refine ⟨rfl, rfl, rfl, ?_⟩
    rw [mkPushEntry]
    by_cases h : instTruthy (function_instance d) = true
    · simp [h]
    · simp [eq_false_of_ne_true h]
  · intro d h
    rw [pushQualifies, h]
    simp [SETTABLE_FUNCTION_CLASSES, FunctionClass.AVAILABLE,
      FunctionClass.POWER, FunctionClass.BRIGHTNESS, FunctionClass.FAN_SPEED,
      FunctionClass.TOGGLE, FunctionClass.COLOR_TEMPERATURE]
  · intro d h
    simp [pushQualifies, h]

/-- Witness for C2: the exclusion components at concrete state values — a
non-null `available` state and a null-valued `power` state both fail the
push filter. -/
theorem push_serialization_witness :
    pushQualifies ⟨some "available", none, Value.str "x", none⟩ = false ∧
    pushQualifies ⟨some "power", none, Value.null, none⟩ = false :=
  ⟨(push_serialization 0 []).2.2.2.1 _ rfl,
   (push_serialization 0 []).2.2.2.2 _ rfl⟩

/-- C4: a class-only state lookup returns the domain value of the first
state of that class in map-iteration order (never an error), returns the
supplied default when the class has no state, and signals the ambiguity
warning exactly when more than one instance of the class exists. -/
theorem class_only_lookup (m : States) (c : String) (default : Value) :
    getStateValue m (.cls c) default =
      (((getClassStates m c).head?.map (fun q => hass_value q.2)).getD default,
       decide (1 < (getClassStates m c).length)) := by
  cases h : getClassStates m c with
  | nil => simp [getStateValue, h]
  | cons q rest =>
      cases rest with
      | nil => simp [getStateValue, h]
      | cons r rs => simp [getStateValue, h, Nat.lt_add_of_pos_left]

theorem find?_insertInner (l : InnerStates) (i i' : Option String)
    (d : StateData) :
    (insertInner l i d).find? (fun q => q.1 = i') =
      if i' = i then some (i, d) else l.find? (fun q => q.1 = i') := by
  induction l with
  | nil =>
      by_cases h : i' = i
      · subst h; simp [insertInner, List.find?]
      · have h2 : ¬ i = i' := fun hh => h hh.symm
        simp [insertInner, List.find?, h, h2]
  | cons q rest ih =>
      by_cases hq : q.1 = i
      · by_cases hi : i' = i
        · subst hi; simp [insertInner, hq, List.find?]
        · have h2 : ¬ i = i' := fun hh => hi hh.symm
          have h3 : ¬ q.1 = i' := fun hh => hi (hh.symm.trans hq)
          simp [insertInner, hq, List.find?, hi, h2, h3]
      · by_cases hqi : q.1 = i'
        · have hi : ¬ i' = i := fun hh => hq (hqi.trans hh)
          simp [insertInner, hq, List.find?, hqi, hi]
        · simp [insertInner, hq, List.find?, hqi, ih]

theorem getClassStates_insert2 (m : States) (c c' : String)
    (i : Option String) (d : StateData) :
    getClassStates (insert2 m c i d) c' =
      if c' = c then insertInner (getClassStates m c) i d
      else getClassStates m c' := by
  induction m with
  | nil =>
      by_cases h : c' = c
      · subst h; simp [insert2, getClassStates, insertInner]
      · have h2 : ¬ c = c' := fun hh => h hh.symm
        simp [insert2, getClassStates, h, h2]
  | cons p rest ih =>
      by_cases hp : p.1 = c
      · by_cases hc : c' = c
        · subst hc; simp [insert2, getClassStates, hp]
        · have h2 : ¬ c = c' := fun hh => hc hh.symm
          have h3 : ¬ p.1 = c' := fun hh => hc (hh.symm.trans hp)
          simp [insert2, getClassStates, hp, hc, h2, h3]
      · by_cases hc : c' = c
        · subst hc
          have h3 : ¬ p.1 = c' := hp
          simp [insert2, getClassStates, hp, h3, ih]
        · by_cases hpc : p.1 = c' <;>
            simp [insert2, getClassStates, hp, hc, hpc, ih]

theorem stateGet_insert2 (m : States) (c c' : String) (i i' : Option String)
    (d : StateData) :
    stateGet (insert2 m c i d) c' i' =
      if c' = c ∧ i' = i then some d else stateGet m c' i' := by
  rw [stateGet, getClassStates_insert2]
  by_cases hc : c' = c
  · rw [if_pos hc, hc, find?_insertInner]
    by_cases hi : i' = i
    · simp [hc, hi]
    · simp [hc, hi, stateGet]
  · simp [hc, stateGet]

theorem stateGet_insertState (m : States) (d : StateData) (c : String)
    (i : Option String) :
    stateGet (insertState m d) c i =
      (if isEntryFor c i d then some d else none).or (stateGet m c i) := by
  rw [insertState]
  by_cases hu : function_class d = FunctionClass.UNSUPPORTED
  · have he : isEntryFor c i d = false := by simp [isEntryFor, hu]
    simp [hu, he]
  · rw [if_neg hu, stateGet_insert2]
    by_cases hm : c = function_class d ∧ i = function_instance d
    · obtain ⟨hc, hi⟩ := hm
      subst hc
      subst hi
      have he : isEntryFor (function_class d) (function_instance d) d = true := by
        simp [isEntryFor, hu]
      simp [he]
    · have he : isEntryFor c i d = false := by
        simp only [isEntryFor, decide_eq_false_iff_not]
        intro hh
        exact hm ⟨hh.1.symm, hh.2.1.symm⟩
      simp [hm, he]

theorem stateGet_foldl (vs : List StateData) (m : States) (c : String)
    (i : Option String) :
    stateGet (vs.foldl insertState m) c i =
      (findLastEntry c i vs).or (stateGet m c i) := by
  induction vs generalizing m with
  | nil => simp [findLastEntry]
  | cons d rest ih =>
      rw [List.foldl_cons, ih, stateGet_insertState, findLastEntry,
        Option.or_assoc]

theorem stateGet_buildStates (vs : List StateData) (c : String)
    (i : Option String) :
    stateGet (buildStates vs) c i = findLastEntry c i vs := by
  rw [buildStates, stateGet_foldl]
  simp [stateGet, getClassStates, Option.or_none]

theorem findLastEntry_mem {c : String} {i : Option String}
    {vs : List StateData} {d : StateData}
    (h : findLastEntry c i vs = some d) :
    d ∈ vs ∧ isEntryFor c i d = true := by
  induction vs with
  | nil => simp [findLastEntry] at h
  | cons d' rest ih =>
      rw [findLastEntry] at h
      cases he : findLastEntry c i rest with
      | some x =>
          rw [he] at h
          simp only [Option.or_some, Option.some.injEq] at h
          subst h
          obtain ⟨h1, h2⟩ := ih he
          exact ⟨List.mem_cons_of_mem _ h1, h2⟩
      | none =>
          rw [he, Option.none_or] at h
          by_cases hq : isEntryFor c i d' = true
          · rw [if_pos (by simp [hq])] at h
            cases h
            exact ⟨List.mem_cons_self .., hq⟩
          · rw [if_neg (by simp [hq])] at h
            cases h

theorem findLastEntry_isSome {c : String} {i : Option String}
    {vs : List StateData} {d : StateData} (hd : d ∈ vs)
    (hq : isEntryFor c i d = true) :
    (findLastEntry c i vs).isSome = true := by
  induction vs with
  | nil => cases hd
  | cons d' rest ih =>
      rw [findLastEntry, Option.isSome_or]
      rcases List.mem_cons.mp hd with h1 | h2
      · subst h1
        simp [hq]
      · simp [ih h2]

/-- C5: for every truthy state payload, parsing replaces the entire map —
the result is independent of the previous map — and the resulting map
holds exactly the payload's entries keyed by (class, instance): every
stored entry comes from the payload with a present, supported function
class matching its key, and every payload entry with a supported class is
stored under its key (the class-`unsupported` entries, including entries
with no `functionClass` field at all, are discarded). -/
theorem state_parse_replaces (old old₂ : States) (p : StatePayload)
    (h : p.isTruthy = true) :
    setState old p = buildStates p.values ∧
    setState old p = setState old₂ p ∧
    (∀ c i d, stateGet (setState old p) c i = some d →
      d ∈ p.values ∧ d.functionClass = some c ∧ function_instance d = i ∧
        c ≠ FunctionClass.UNSUPPORTED) ∧
    (∀ d ∈ p.values, function_class d ≠ FunctionClass.UNSUPPORTED →
      (stateGet (setState old p) (function_class d)
          (function_instance d)).isSome = true) := by
  have h1 : setState old p = buildStates p.values := by simp [setState, h]
  refine ⟨h1, by simp [setState, h], ?_, ?_⟩
  · intro c i d hd
    rw [h1, stateGet_buildStates] at hd
    obtain ⟨hm, hq⟩ := findLastEntry_mem hd
    simp only [isEntryFor, Bool.and_eq_true, decide_eq_true_eq,
      Bool.not_eq_true', decide_eq_false_iff_not] at hq
    obtain ⟨hc, hi, hu⟩ := hq
    refine ⟨hm, ?_, hi, hc ▸ hu⟩
    cases hcc : d.functionClass with
    | none => exact absurd (by simp [function_class, hcc]) hu
    | some s =>
        have : s = c := by simpa [function_class, hcc] using hc
        rw [this]
  · intro d hd hu
    rw [h1, stateGet_buildStates]
    exact findLastEntry_isSome hd (by simp [isEntryFor, hu])

/-- Witness for C5: a truthy one-entry payload parsed over a previously
non-empty map. -/
theorem state_parse_replaces_witness :
    setState [("toggle", [(some "eco", ⟨some "toggle", some "eco",
          Value.str "disabled", none⟩)])]
        ⟨true, [⟨some "power", none, Value.str "on", none⟩]⟩ =
      buildStates [⟨some "power", none, Value.str "on", none⟩] :=
  (state_parse_replaces
    [("toggle", [(some "eco", ⟨some "toggle", some "eco",
        Value.str "disabled", none⟩)])] [] _ rfl).1

/-- Class lookup after updating the inner map of one class in place. -/
theorem getClassStates_mapUpdate (m : States) (c c' : String)
    (f : InnerStates → InnerStates) (hf : f [] = []) :
    getClassStates
        (m.map (fun p => if p.1 = c then (p.1, f p.2) else p)) c' =
      if c' = c then f (getClassStates m c) else getClassStates m c' := by
  induction m with
  | nil =>
      by_cases h : c' = c <;> simp [getClassStates, h, hf]
  | cons p rest ih =>
      by_cases hp : p.1 = c
      · by_cases hc : c' = c
        · subst hc; simp [getClassStates, hp, hp.symm ▸ hp]
        · have h2 : ¬ c = c' := fun hh => hc hh.symm
          have h3 : ¬ p.1 = c' := fun hh => hc (hh.symm.trans hp)
          simp [getClassStates, hp, hc, h2, h3, ih]
      · by_cases hpc : p.1 = c'
        · have hc : ¬ c' = c := fun hh => hp (hpc.trans hh)
          simp [getClassStates, hp, hpc, hc]
        · simp [getClassStates, hp, hpc, ih]

/-- Looking up the updated instance key after an in-place inner update
finds the updated entry. -/
theorem find?_mapSet_eq (l : InnerStates) (i : Option String) (v : Value) :
    (l.map (fun q =>
        if q.1 = i then (q.1, set_hass_value q.2 v) else q)).find?
        (fun q => q.1 = i) =
      (l.find? (fun q => q.1 = i)).map
        (fun q => (q.1, set_hass_value q.2 v)) := by
  induction l with
  | nil => simp
  | cons q rest ih =>
      by_cases hq : q.1 = i
      · simp [List.find?, hq, ih]
      · simp [List.find?, hq, ih]

/-- Looking up any other instance key after an in-place inner update is
unaffected. -/
theorem find?_mapSet_ne (l : InnerStates) (i i' : Option String)
    (hne : ¬ i' = i) (v : Value) :
    (l.map (fun q =>
        if q.1 = i then (q.1, set_hass_value q.2 v) else q)).find?
        (fun q => q.1 = i') =
      l.find? (fun q => q.1 = i') := by
  induction l with
  | nil => simp
  | cons q rest ih =>
      by_cases hq : q.1 = i
      · have h2 : ¬ i = i' := fun hh => hne hh.symm
        have h3 : ¬ q.1 = i' := fun hh => hne (hh.symm.trans hq)
        simp [List.find?, hq, h2, h3, ih]
      · by_cases hqi : q.1 = i' <;>
          simp [List.find?, hq, hqi, hne, ih]

/-- A tuple-key write whose (class, instance) pair has no state value
leaves the map structurally unchanged (the outer keys are unique in any
map built from a Python dict). -/
theorem setStateValue_pair_noop (m : States) (c : String)
    (i : Option String) (v : Value) (hnd : (m.map Prod.fst).Nodup)
    (hnone : stateGet m c i = none) :
    setStateValue m (.pair c i) v = m := by
  induction m with
  | nil => rfl
  | cons p rest ih =>
      rw [List.map_cons, List.nodup_cons] at hnd
      obtain ⟨hnotin, hndr⟩ := hnd
      by_cases hp : p.1 = c
      · have hget : getClassStates (p :: rest) c = p.2 := by
          simp [getClassStates, hp]
        have hfind : p.2.find? (fun q => q.1 = i) = none := by
          rw [stateGet, hget] at hnone
          cases hfe : p.2.find? (fun q => q.1 = i) with
          | none => rfl
          | some q => rw [hfe] at hnone; cases hnone
        have hall := List.find?_eq_none.mp hfind
        have hinner :
            p.2.map (fun q =>
              if q.1 = i then (q.1, set_hass_value q.2 v) else q) = p.2 := by
          conv_rhs => rw [← List.map_id p.2]
          refine List.map_congr_left (fun q hq => ?_)
          have := hall q hq
          simp at this
          simp [this]
        have hrest : rest.map (fun p' =>
            if p'.1 = c then
              (p'.1, p'.2.map (fun q =>
                if q.1 = i then (q.1, set_hass_value q.2 v) else q))
            else p') = rest := by
          conv_rhs => rw [← List.map_id rest]
          refine List.map_congr_left (fun p' hp' => ?_)
          have hne : ¬ p'.1 = c := by
            intro hh
            have hmem : p'.1 ∈ rest.map Prod.fst :=
              List.mem_map_of_mem Prod.fst hp'
            rw [hh, ← hp] at hmem
            exact hnotin hmem
          simp [hne]
        simp only [setStateValue, List.map_cons, if_pos hp, hinner, hrest]
      · have hstep : stateGet rest c i = none := by
          rw [stateGet, getClassStates, if_neg hp] at hnone
          exact hnone
        have := ih hndr hstep
        simp only [setStateValue, List.map_cons, if_neg hp] at this ⊢
        rw [this]

/-- C3: a class-only write applies the domain-level conversion of the
value to every state value of that class (all N instances), leaving other
classes untouched; a (class, instance) write updates exactly that one
state value, leaving every other key untouched, and is a structural no-op
when no state value exists for the pair. -/
theorem set_state_value_semantics (m : States) (c : String)
    (i : Option String) (v : Value) :
    getClassStates (setStateValue m (.cls c) v) c =
      (getClassStates m c).map (fun q => (q.1, set_hass_value q.2 v)) ∧
    (∀ c', ¬ c' = c →
      getClassStates (setStateValue m (.cls c) v) c' =
        getClassStates m c') ∧
    stateGet (setStateValue m (.pair c i) v) c i =
      (stateGet m c i).map (fun d => set_hass_value d v) ∧
    (∀ c' i', ¬ (c' = c ∧ i' = i) →
      stateGet (setStateValue m (.pair c i) v) c' i' = stateGet m c' i') ∧
    ((m.map Prod.fst).Nodup → stateGet m c i = none →
      setStateValue m (.pair c i) v = m) := by
  have hcls : ∀ c', getClassStates (setStateValue m (.cls c) v) c' =
      if c' = c then
        (getClassStates m c).map (fun q => (q.1, set_hass_value q.2 v))
      else getClassStates m c' := by
    intro c'
    simp only [setStateValue]
    exact getClassStates_mapUpdate m c c'
      (fun l => l.map (fun q => (q.1, set_hass_value q.2 v))) rfl
  have hpair : ∀ c', getClassStates (setStateValue m (.pair c i) v) c' =
      if c' = c then
        (getClassStates m c).map (fun q =>
          if q.1 = i then (q.1, set_hass_value q.2 v) else q)
      else getClassStates m c' := by
    intro c'
    simp only [setStateValue]
    exact getClassStates_mapUpdate m c c'
      (fun l => l.map (fun q =>
        if q.1 = i then (q.1, set_hass_value q.2 v) else q)) rfl
  refine ⟨?_, ?_, ?_, ?_, setStateValue_pair_noop m c i v⟩
  · exact (hcls c).trans (if_pos rfl)
  · intro c' hne
    exact (hcls c').trans (if_neg hne)
  · rw [stateGet, (hpair c).trans (if_pos rfl), find?_mapSet_eq, stateGet]
    cases (getClassStates m c).find? (fun q => q.1 = i) <;> simp
  · intro c' i' hne
    by_cases hc : c' = c
    · subst hc
      have hi : ¬ i' = i := fun hh => hne ⟨rfl, hh⟩
      rw [stateGet, (hpair c').trans (if_pos rfl),
        find?_mapSet_ne _ _ _ hi, stateGet]
    · rw [stateGet, (hpair c').trans (if_neg hc), stateGet]

/-- Witness for C3: a tuple-key write for an absent (class, instance) pair
on a concrete one-class map is a no-op. -/
theorem set_state_value_semantics_witness :
    setStateValue
        [("power", [(none, ⟨some "power", none, Value.str "on", none⟩)])]
        (.pair "toggle" (some "eco")) (Value.str "enabled") =
      [("power", [(none, ⟨some "power", none, Value.str "on", none⟩)])] :=
  (set_state_value_semantics
      [("power", [(none, ⟨some "power", none, Value.str "on", none⟩)])]
      "toggle" (some "eco") (Value.str "enabled")).2.2.2.2
    (by decide) (by decide)
